import Mathlib

/-!
Shallow embedding of the EchoVerse game engine (src/components/GameEngine.tsx).

The engine owns a mutable `GameState` record, interprets normalized command
strings, resolves movement against environment boundaries, detects proximity
to objectives and hazards, and drives score / life / level transitions.  Every
method of the TypeScript class is translated to a pure function
`Engine → Engine × List Effect`: the returned effect list records, in order,
the calls the method makes on its collaborators (speech, audio, logging, UI
snapshots) plus the one deferred `setTimeout` it schedules.

Coordinates: the source uses real-valued THREE.Vector3 positions, but every
position the engine ever computes is integral (the origin, unit steps, and
integer catalog coordinates), and all half-extents are integers, so positions
are embedded as integer vectors.  A distance comparison `dist ≤ r` against the
fixed radii 1.5 / 2 / 3 / 4 is encoded by the exactly equivalent integer
comparison on squared distances (`4*d² ≤ 9`, `d² ≤ 4`, `d² ≤ 9`, `d² ≤ 16`).
-/

namespace EchoVerse

/-- 3D vector; only x and z carry game data, y is always 0 in engine positions. -/
structure Vec3 where
  x : Int
  y : Int
  z : Int
deriving DecidableEq, Repr

/-- Origin, the starting position (`new THREE.Vector3(0, 0, 0)`). -/
def vzero : Vec3 := ⟨0, 0, 0⟩

/-- Default forward heading (`new THREE.Vector3(0, 0, 1)`). -/
def defaultDirection : Vec3 := ⟨0, 0, 1⟩

/-- Squared Euclidean distance; `playerPos.distanceTo(p) ≤ r` is encoded as
`4 * distSq ≤ (2*r)^2`-style integer comparisons, exact for integral inputs. -/
def distSq (a b : Vec3) : Int :=
  (a.x - b.x) ^ 2 + (a.y - b.y) ^ 2 + (a.z - b.z) ^ 2

/-- Game mode (`'practice' | 'adventure'`). -/
inductive Mode where
  | practice
  | adventure
deriving DecidableEq, Repr

/-- String form of a mode, used in the toggle-mode narration. -/
def Mode.str : Mode → String
  | .practice => "practice"
  | .adventure => "adventure"

/-- Movement direction; `movePlayer` is only ever called with these four
literal strings from the command dispatch. -/
inductive Direction where
  | left
  | right
  | forward
  | back
deriving DecidableEq, Repr

/-- String form of a direction, used in movement feedback narration. -/
def Direction.str : Direction → String
  | .left => "left"
  | .right => "right"
  | .forward => "forward"
  | .back => "back"

/-- An objective template / live objective (collect-once goal). -/
structure Objective where
  type : String
  target : String
  position : Vec3
  description : String
deriving DecidableEq, Repr

/-- A hazard (never removed, re-triggerable). -/
structure Hazard where
  type : String
  position : Vec3
  description : String
deriving DecidableEq, Repr

/-- A world-catalog environment.  The practice room literal in the source has
no `id`, `soundscape`, `objectives` or `hazards` properties; those absent
properties are embedded as `none` and `[]`, which matches how the engine reads
them (`env.soundscape === 'forest'` is false and `env.hazards?.forEach` is a
no-op on `undefined`). -/
structure Environment where
  id : Option Nat
  name : String
  description : String
  size : Vec3
  soundscape : Option String
  objectives : List Objective
  hazards : List Hazard
deriving DecidableEq, Repr

/-- Objectives of catalog level 1, The Echoing Forest. -/
def forestObjectives : List Objective :=
  [{ type := "find", target := "crystal", position := ⟨3, 0, 4⟩,
     description := "A magical crystal that hums with energy" }]

/-- The hazard of catalog level 1. -/
def pitHazard : Hazard :=
  { type := "pit", position := ⟨-2, 0, 2⟩,
    description := "A deep pit with echoing depths" }

/-- Hazards of catalog level 1. -/
def forestHazards : List Hazard := [pitHazard]

/-- Objectives of catalog level 2, The Whispering Caves. -/
def caveObjectives : List Objective :=
  [{ type := "escape", target := "exit", position := ⟨0, 0, 6⟩,
     description := "The cave exit with fresh air flowing through" }]

/-- Hazards of catalog level 2. -/
def caveHazards : List Hazard :=
  [{ type := "rockfall", position := ⟨2, 0, -3⟩,
     description := "Unstable rocks that could fall" }]

/-- Catalog level 1, The Echoing Forest. -/
def forestEnv : Environment :=
  { id := some 1,
    name := "The Echoing Forest",
    description := "You find yourself in a mysterious forest where sounds bounce off ancient trees. The ground crunches softly beneath your feet.",
    size := ⟨10, 0, 10⟩,
    soundscape := some "forest",
    objectives := forestObjectives,
    hazards := forestHazards }

/-- Catalog level 2, The Whispering Caves. -/
def caveEnv : Environment :=
  { id := some 2,
    name := "The Whispering Caves",
    description := "Deep underground caverns where every sound creates haunting echoes. Water drips steadily in the distance.",
    size := ⟨8, 0, 12⟩,
    soundscape := some "cave",
    objectives := caveObjectives,
    hazards := caveHazards }

/-- The static adventure world catalog (`initializeEnvironments`). -/
def environments : List Environment := [forestEnv, caveEnv]

/-- The ad-hoc environment literal created by `startPracticeMode`. -/
def practiceRoom : Environment :=
  { id := none,
    name := "Practice Room",
    description := "A simple room for learning",
    size := ⟨4, 0, 4⟩,
    soundscape := none,
    objectives := [],
    hazards := [] }

/-- The engine-owned mutable aggregate (`GameState` interface). -/
structure GameState where
  mode : Mode
  isPlaying : Bool
  score : Int
  lives : Int
  currentLevel : Nat
  playerPosition : Vec3
  playerDirection : Vec3
  environment : Option Environment
  objectives : List Objective
  inventory : List String
deriving DecidableEq, Repr

/-- The engine object: the game state plus the two auxiliary private fields
that survive across commands (`currentObjective`, `lastCommand`). -/
structure Engine where
  gameState : GameState
  currentObjective : Option Objective
  lastCommand : String
deriving DecidableEq, Repr

/-- Status snapshot pushed through `onStateChange` by `updateState`. -/
structure StatusSnapshot where
  mode : Mode
  isPlaying : Bool
  score : Int
  lives : Int
  currentLevel : Nat
deriving DecidableEq, Repr

/-- Visual snapshot pushed through `onVisualUpdate` by `updateVisualState`. -/
structure VisualSnapshot where
  px : Int
  pz : Int
  environment : Option Environment
  objectives : List Objective
  hazards : List Hazard
deriving DecidableEq, Repr

/-- One externally observable action requested by the engine, in program
order: audio-manager calls, voice-controller calls, log lines, snapshot
emissions, and the one `setTimeout` that schedules the next-level start. -/
inductive Effect where
  | speak (text : String)
  | playSound (name : String) (volume : Rat)
  | playPositionalSound (id : String) (volume : Rat)
  | createPositionalSound (id : String) (position : Vec3)
  | setListenerPosition (position forward upward : Vec3)
  | startBackgroundMusic
  | stopBackgroundMusic
  | scheduleNextLevel
  | repeatLastSpeech
  | stateChange (status : StatusSnapshot)
  | visualUpdate (visual : VisualSnapshot)
  | log (message : String)
deriving DecidableEq, Repr

/-- The `updateState` callback payload. -/
def updateState (e : Engine) : Effect :=
  .stateChange
    { mode := e.gameState.mode,
      isPlaying := e.gameState.isPlaying,
      score := e.gameState.score,
      lives := e.gameState.lives,
      currentLevel := e.gameState.currentLevel }

/-- The `updateVisualState` callback payload (`hazards` falls back to `[]`
when no environment is set, per `environment?.hazards || []`). -/
def updateVisualState (e : Engine) : Effect :=
  .visualUpdate
    { px := e.gameState.playerPosition.x,
      pz := e.gameState.playerPosition.z,
      environment := e.gameState.environment,
      objectives := e.gameState.objectives,
      hazards := (e.gameState.environment.map Environment.hazards).getD [] }

/-- The engine as constructed (initial `gameState` literal). -/
def initEngine : Engine :=
  { gameState :=
      { mode := .practice,
        isPlaying := false,
        score := 0,
        lives := 3,
        currentLevel := 1,
        playerPosition := vzero,
        playerDirection := defaultDirection,
        environment := none,
        objectives := [],
        inventory := [] },
    currentObjective := none,
    lastCommand := "" }

/-- The `stopGame` method: clears `isPlaying`, halts ambient audio. -/
def stopGame (e : Engine) : Engine × List Effect :=
  let e := { e with gameState := { e.gameState with isPlaying := false } }
  (e, [Effect.stopBackgroundMusic, updateState e])

/-- The `gameOver` method: final-score narration, then `stopGame`. -/
def gameOver (e : Engine) : Engine × List Effect :=
  let msg := "Game Over! Your final score was " ++ toString e.gameState.score ++
    ". Better luck next time!"
  let r := stopGame e
  (r.1, Effect.speak msg :: r.2)

/-- The `gameWon` method: victory narration with final score, then `stopGame`. -/
def gameWon (e : Engine) : Engine × List Effect :=
  let msg := "Congratulations! You\x27ve completed all levels! Your final score is " ++
    toString e.gameState.score ++ ". You are a true EchoVerse champion!"
  let r := stopGame e
  (r.1, Effect.speak msg :: r.2)

/-- The `completeLevel` method: +500 score, +1 level, then either schedules
the next-level start (the bare `setTimeout(() => this.startAdventureMode(), 3000)`)
or invokes `gameWon` when the new level exceeds the catalog size. -/
def completeLevel (e : Engine) : Engine × List Effect :=
  let pre := [Effect.playSound "success" 1,
              Effect.speak ("Level " ++ toString e.gameState.currentLevel ++
                " completed! Well done!")]
  let gs := { e.gameState with
                score := e.gameState.score + 500,
                currentLevel := e.gameState.currentLevel + 1 }
  let e := { e with gameState := gs }
  let r : Engine × List Effect :=
    if gs.currentLevel ≤ environments.length then (e, [Effect.scheduleNextLevel])
    else gameWon e
  (r.1, pre ++ r.2 ++ [updateState r.1])

/-- The `interactWithObjective` method: success sound and narration, +100
score, `splice(index, 1)` on the live objective list, then level completion
if the list emptied, else the current-objective pointer moves to the new head. -/
def interactWithObjective (e : Engine) (objective : Objective) (index : Nat) :
    Engine × List Effect :=
  let pre := [Effect.playSound "success" 1,
              Effect.speak ("Congratulations! You found " ++
                objective.description ++ "!")]
  let gs := { e.gameState with
                score := e.gameState.score + 100,
                objectives := e.gameState.objectives.eraseIdx index }
  let e := { e with gameState := gs }
  let r : Engine × List Effect :=
    if gs.objectives.isEmpty then completeLevel e
    else ({ e with currentObjective := gs.objectives.head? }, [])
  (r.1, pre ++ r.2 ++ [Effect.log ("Found: " ++ objective.description),
                       updateState r.1])

/-- The `interactWithHazard` method: danger sound and narration, `lives -= 1`,
then `gameOver` when `lives <= 0`, else the player is returned to the origin
with a remaining-lives narration.  The hazard itself is never removed. -/
def interactWithHazard (e : Engine) (hazard : Hazard) : Engine × List Effect :=
  let pre := [Effect.playSound "danger" 1,
              Effect.speak ("Oh no! You encountered " ++ hazard.description ++
                ". You lost a life!")]
  let gs := { e.gameState with lives := e.gameState.lives - 1 }
  let e := { e with gameState := gs }
  let r : Engine × List Effect :=
    if gs.lives ≤ 0 then gameOver e
    else
      let e := { e with gameState := { gs with playerPosition := vzero } }
      (e, [Effect.speak ("You have " ++ toString gs.lives ++
        " lives remaining. You\x27ve been returned to the starting position.")])
  (r.1, pre ++ r.2 ++ [Effect.log ("Hazard encountered: " ++ hazard.description),
                       updateState r.1])

/-- The objective half of `checkForInteractions`: an ECMAScript
`forEach`-with-`splice` loop.  `forEach` caches the length at entry (`fuel`),
walks indices `k` upward, skips indices the shrinking live array no longer
has, and reads each element from the live (possibly already spliced) array. -/
def objectivesLoop (e : Engine) (k : Nat) : Nat → Engine × List Effect
  | 0 => (e, [])
  | fuel + 1 =>
    match e.gameState.objectives.get? k with
    | none => objectivesLoop e (k + 1) fuel
    | some objective =>
      let d := distSq e.gameState.playerPosition objective.position
      if 4 * d ≤ 9 then
        let r := interactWithObjective e objective k
        let rest := objectivesLoop r.1 (k + 1) fuel
        (rest.1, r.2 ++ rest.2)
      else if d ≤ 9 then
        let rest := objectivesLoop e (k + 1) fuel
        (rest.1, Effect.playPositionalSound ("objective_" ++ toString k) (3/10) :: rest.2)
      else
        objectivesLoop e (k + 1) fuel

/-- The hazard half of `checkForInteractions`: hazards are never removed, so
this is a plain indexed walk; distances are measured from the live player
position (a hazard hit may reset it to the origin mid-loop). -/
def hazardsLoop (e : Engine) (hs : List Hazard) (k : Nat) : Engine × List Effect :=
  match hs with
  | [] => (e, [])
  | hazard :: rest =>
    let d := distSq e.gameState.playerPosition hazard.position
    if 4 * d ≤ 9 then
      let r := interactWithHazard e hazard
      let next := hazardsLoop r.1 rest (k + 1)
      (next.1, r.2 ++ next.2)
    else if d ≤ 4 then
      let next := hazardsLoop e rest (k + 1)
      (next.1, Effect.playPositionalSound ("hazard_" ++ toString k) (2/5) :: next.2)
    else
      hazardsLoop e rest (k + 1)

/-- The `checkForInteractions` method: objectives first, then hazards taken
from the environment current after the objective pass. -/
def checkForInteractions (e : Engine) : Engine × List Effect :=
  let r1 := objectivesLoop e 0 e.gameState.objectives.length
  let hazards := (r1.1.gameState.environment.map Environment.hazards).getD []
  let r2 := hazardsLoop r1.1 hazards 0
  (r2.1, r1.2 ++ r2.2)

/-- The `getMovementFeedback` method (cosmetic narration; thresholds compare
the post-move live position against soundscape-specific cutoffs). -/
def getMovementFeedback (e : Engine) (direction : Direction) : String :=
  let pos := e.gameState.playerPosition
  match e.gameState.environment with
  | none =>
    "You moved " ++ direction.str ++ ". You are now at position " ++
      toString pos.x ++ ", " ++ toString pos.z ++ "."
  | some env =>
    let feedback := "You moved " ++ direction.str ++ ". "
    if env.soundscape = some "forest" then
      (if 3 < |pos.x| ∨ 3 < |pos.z| then
        feedback ++ "The trees seem denser here. " else feedback) ++
      "Leaves rustle in the wind around you."
    else if env.soundscape = some "cave" then
      (if 2 < |pos.x| ∨ 4 < |pos.z| then
        feedback ++ "Your footsteps echo more dramatically here. " else feedback) ++
      "Water drips steadily somewhere in the darkness."
    else feedback

/-- One unit step along the axis implied by a direction (`moveDistance = 1`). -/
def stepFrom (p : Vec3) : Direction → Vec3
  | .left => { p with x := p.x - 1 }
  | .right => { p with x := p.x + 1 }
  | .forward => { p with z := p.z + 1 }
  | .back => { p with z := p.z - 1 }

/-- Half-extent on x of an environment (`size.clone().multiplyScalar(0.5)`;
every catalog size component is even, so integer halving is exact). -/
def halfX (env : Environment) : Int := env.size.x / 2

/-- Half-extent on z of an environment. -/
def halfZ (env : Environment) : Int := env.size.z / 2

/-- The boundary-rejection narration text. -/
def edgeMessage : String :=
  "You\x27ve reached the edge. You cannot go further in this direction."

/-- Accepted-move tail of `movePlayer`: step sound, listener pose, interaction
detection, then the contextual movement feedback on the (post-interaction)
live position, then the two snapshots. -/
def movePlayerAccepted (e : Engine) (direction : Direction) : Engine × List Effect :=
  let pre := [Effect.playSound "step" (7/10),
              Effect.setListenerPosition e.gameState.playerPosition
                e.gameState.playerDirection ⟨0, 1, 0⟩]
  let r := checkForInteractions e
  let feedback := getMovementFeedback r.1 direction
  let fx := if feedback.isEmpty then [] else [Effect.speak feedback]
  (r.1, pre ++ r.2 ++ fx ++ [updateState r.1, updateVisualState r.1])

/-- The `movePlayer` method: guards on `isPlaying`, applies the unit step,
fully rejects the move (restoring the pre-move position) when either axis of
the candidate exceeds the active environment half-extents, else proceeds with
the accepted-move tail. -/
def movePlayer (e : Engine) (direction : Direction) : Engine × List Effect :=
  if e.gameState.isPlaying = false then (e, [])
  else
    let oldPosition := e.gameState.playerPosition
    let p := stepFrom oldPosition direction
    let e := { e with gameState := { e.gameState with playerPosition := p } }
    match e.gameState.environment with
    | some env =>
      if halfX env < |p.x| ∨ halfZ env < |p.z| then
        ({ e with gameState := { e.gameState with playerPosition := oldPosition } },
         [Effect.speak edgeMessage, Effect.playSound "danger" (1/2)])
      else movePlayerAccepted e direction
    | none => movePlayerAccepted e direction

/-- The `lookAround` method: narrates surroundings; an echo cue fires when
some remaining objective is within the 4-unit awareness radius.  No state
mutation. -/
def lookAround (e : Engine) : Engine × List Effect :=
  if e.gameState.isPlaying = false then (e, [])
  else
    let base := "You listen carefully to your surroundings. "
    match e.gameState.environment with
    | some env =>
      let nearby := e.gameState.objectives.filter fun obj =>
        decide (distSq e.gameState.playerPosition obj.position ≤ 16)
      if nearby.isEmpty then
        (e, [Effect.speak (base ++ env.description ++ " "),
             Effect.log "Examined surroundings"])
      else
        (e, [Effect.playSound "echo" (1/2),
             Effect.speak (base ++ env.description ++ " " ++
               "You sense something important nearby. "),
             Effect.log "Examined surroundings"])
    | none =>
      (e, [Effect.speak (base ++
             "You are in a practice room. The walls seem close on all sides."),
           Effect.log "Examined surroundings"])

/-- The `provideHelp` method: fixed vocabulary plus current rounded position. -/
def provideHelp (e : Engine) : Engine × List Effect :=
  let msg := "\n      Available commands: \n      Say \"go left\", \"go right\", \"go forward\", or \"go back\" to move.\n      Say \"look around\" to examine your surroundings.\n      Say \"repeat\" to hear the last message again.\n      You can also use arrow keys for movement and spacebar to look around.\n      Your current position is " ++
    toString e.gameState.playerPosition.x ++ ", " ++
    toString e.gameState.playerPosition.z ++ ".\n    "
  (e, [Effect.speak msg, Effect.log "Provided help information"])

/-- The `toggleMode` method: refused while playing, else flips the mode. -/
def toggleMode (e : Engine) : Engine × List Effect :=
  if e.gameState.isPlaying then
    (e, [Effect.speak "Please stop the current game before changing modes."])
  else
    let m := match e.gameState.mode with
      | .practice => Mode.adventure
      | .adventure => Mode.practice
    let e := { e with gameState := { e.gameState with mode := m } }
    (e, [Effect.speak ("Switched to " ++ m.str ++ " mode."), updateState e])

/-- The `handleUnknownCommand` method: echo narration plus a log line, no
state mutation. -/
def handleUnknownCommand (e : Engine) (command : String) : Engine × List Effect :=
  (e, [Effect.speak ("I didn\x27t understand \"" ++ command ++
         "\". Say \"help\" for available commands."),
       Effect.log ("Unknown command: " ++ command)])

/-- The `resetGame` method: a fresh `gameState` literal (mode preserved,
`currentObjective` and `lastCommand` are not touched by the source). -/
def resetGame (e : Engine) : Engine × List Effect :=
  let gs : GameState :=
    { mode := e.gameState.mode,
      isPlaying := false,
      score := 0,
      lives := 3,
      currentLevel := 1,
      playerPosition := vzero,
      playerDirection := defaultDirection,
      environment := none,
      objectives := [],
      inventory := [] }
  let e := { e with gameState := gs }
  (e, [Effect.stopBackgroundMusic,
       Effect.speak "Game reset. Ready for a new adventure!",
       Effect.log "Game reset",
       updateState e, updateVisualState e])

/-- The practice-mode welcome template. -/
def practiceWelcome : String :=
  "\n      Welcome to Practice Mode! This is a safe space to learn the controls.\n      You are standing in the center of a small room.\n      Try saying \"go left\", \"go right\", \"go forward\", or \"go back\" to move around.\n      Say \"look around\" to examine your surroundings.\n      Say \"help\" if you need assistance.\n    "

/-- The `startPracticeMode` method: welcome narration, log, and the ad-hoc
practice environment.  Note that the source does not touch `objectives` here. -/
def startPracticeMode (e : Engine) : Engine × List Effect :=
  let e := { e with gameState := { e.gameState with environment := some practiceRoom } }
  (e, [Effect.speak practiceWelcome, Effect.log "Started Practice Mode"])

/-- The `setupSpatialAudio` method: one positional sound per live objective
and per environment hazard, keyed by list index. -/
def setupSpatialAudio (e : Engine) : List Effect :=
  match e.gameState.environment with
  | none => []
  | some env =>
    (e.gameState.objectives.enum.map fun p =>
      Effect.createPositionalSound ("objective_" ++ toString p.1) p.2.position) ++
    (env.hazards.enum.map fun p =>
      Effect.createPositionalSound ("hazard_" ++ toString p.1) p.2.position)

/-- The `startAdventureMode` method: selects `environments[currentLevel - 1]`,
copies its objectives into the session (`[...environment.objectives]`), points
`currentObjective` at the first copy, narrates the welcome, and arms spatial
audio.  The source indexes the catalog without a bounds check and would throw
on a missing entry (reachable only by restarting after the game has been won);
that path is embedded as leaving the engine unchanged with no effects. -/
def startAdventureMode (e : Engine) : Engine × List Effect :=
  match environments.get? (e.gameState.currentLevel - 1) with
  | none => (e, [])
  | some environment =>
    let objectives := environment.objectives
    let e := { e with
      gameState := { e.gameState with
        environment := some environment,
        objectives := objectives },
      currentObjective := objectives.head? }
    let welcome := "\n      Welcome to Adventure Mode! \n      " ++
      environment.description ++ "\n      Your objective: " ++
      ((objectives.head?).map Objective.description).getD "" ++
      "\n      Listen carefully to the sounds around you. Good luck!\n    "
    (e, [Effect.speak welcome,
         Effect.log ("Started Adventure Mode - " ++ environment.name)] ++
        setupSpatialAudio e)

/-- The `startGame` method: marks the session playing, resets position and
heading, enters the mode-specific start sequence, then emits the snapshots
and starts the ambient loop.  `score`, `lives` and `currentLevel` are not
touched. -/
def startGame (e : Engine) (mode : Mode) : Engine × List Effect :=
  let gs := { e.gameState with
                mode := mode,
                isPlaying := true,
                playerPosition := vzero,
                playerDirection := defaultDirection }
  let e := { e with gameState := gs }
  let r := if mode = Mode.practice then startPracticeMode e else startAdventureMode e
  (r.1, r.2 ++ [updateState r.1, updateVisualState r.1, Effect.startBackgroundMusic])

/-- The always-allowed command set checked by the not-playing gate. -/
def allowedWhileStopped : List String :=
  ["start game", "help", "toggle mode", "reset game"]

/-- The `switch (command)` statement of `processCommand`: exact string match
over the fixed vocabulary with the unknown-command fallback. -/
def dispatchCommand (e : Engine) (command : String) : Engine × List Effect :=
  if command = "start game" then startGame e e.gameState.mode
  else if command = "go left" then movePlayer e .left
  else if command = "go right" then movePlayer e .right
  else if command = "go forward" then movePlayer e .forward
  else if command = "go back" then movePlayer e .back
  else if command = "look around" then lookAround e
  else if command = "help" then provideHelp e
  else if command = "repeat" then (e, [Effect.repeatLastSpeech])
  else if command = "toggle mode" then toggleMode e
  else if command = "reset game" then resetGame e
  else if command = "stop game" then stopGame e
  else handleUnknownCommand e command

/-- The `processCommand` method: records `lastCommand`, logs the command,
applies the not-playing gate, then runs the dispatch switch. -/
def processCommand (e : Engine) (command : String) : Engine × List Effect :=
  let e := { e with lastCommand := command }
  let pre := [Effect.log ("Processing: " ++ command)]
  if e.gameState.isPlaying = false ∧ allowedWhileStopped.contains command = false then
    (e, pre ++ [Effect.speak "Please start a game first."])
  else
    let r := dispatchCommand e command
    (r.1, pre ++ r.2)

/-- Run a command sequence, collecting the engine and the full effect trace. -/
def runTrace (e : Engine) : List String → Engine × List Effect
  | [] => (e, [])
  | c :: cs =>
    let r := processCommand e c
    let rest := runTrace r.1 cs
    (rest.1, r.2 ++ rest.2)

/-- Run a command sequence, keeping only the resulting engine. -/
def runCommands (e : Engine) (cs : List String) : Engine :=
  (runTrace e cs).1

/-- The full fixed command vocabulary of the dispatch. -/
def commandVocabulary : List String :=
  ["start game", "go left", "go right", "go forward", "go back", "look around",
   "help", "repeat", "toggle mode", "reset game", "stop game"]

/-! ### Dispatch equations -/

theorem dispatchCommand_start (e : Engine) :
    dispatchCommand e "start game" = startGame e e.gameState.mode := rfl

theorem dispatchCommand_left (e : Engine) :
    dispatchCommand e "go left" = movePlayer e .left := rfl

theorem dispatchCommand_right (e : Engine) :
    dispatchCommand e "go right" = movePlayer e .right := rfl

theorem dispatchCommand_forward (e : Engine) :
    dispatchCommand e "go forward" = movePlayer e .forward := rfl

theorem dispatchCommand_back (e : Engine) :
    dispatchCommand e "go back" = movePlayer e .back := rfl

theorem dispatchCommand_look (e : Engine) :
    dispatchCommand e "look around" = lookAround e := rfl

theorem dispatchCommand_help (e : Engine) :
    dispatchCommand e "help" = provideHelp e := rfl

theorem dispatchCommand_repeat (e : Engine) :
    dispatchCommand e "repeat" = (e, [Effect.repeatLastSpeech]) := rfl

theorem dispatchCommand_toggle (e : Engine) :
    dispatchCommand e "toggle mode" = toggleMode e := rfl

theorem dispatchCommand_reset (e : Engine) :
    dispatchCommand e "reset game" = resetGame e := rfl

theorem dispatchCommand_stop (e : Engine) :
    dispatchCommand e "stop game" = stopGame e := rfl

theorem dispatchCommand_unknown (e : Engine) (cmd : String)
    (hm : ¬ cmd ∈ commandVocabulary) :
    dispatchCommand e cmd = handleUnknownCommand e cmd := by
  unfold dispatchCommand
  rw [if_neg fun hh : cmd = "start game" => hm (by rw [hh]; decide),
      if_neg fun hh : cmd = "go left" => hm (by rw [hh]; decide),
      if_neg fun hh : cmd = "go right" => hm (by rw [hh]; decide),
      if_neg fun hh : cmd = "go forward" => hm (by rw [hh]; decide),
      if_neg fun hh : cmd = "go back" => hm (by rw [hh]; decide),
      if_neg fun hh : cmd = "look around" => hm (by rw [hh]; decide),
      if_neg fun hh : cmd = "help" => hm (by rw [hh]; decide),
      if_neg fun hh : cmd = "repeat" => hm (by rw [hh]; decide),
      if_neg fun hh : cmd = "toggle mode" => hm (by rw [hh]; decide),
      if_neg fun hh : cmd = "reset game" => hm (by rw [hh]; decide),
      if_neg fun hh : cmd = "stop game" => hm (by rw [hh]; decide)]

theorem processCommand_gated (e : Engine) (cmd : String)
    (hp : e.gameState.isPlaying = false)
    (hc : allowedWhileStopped.contains cmd = false) :
    processCommand e cmd = ({ e with lastCommand := cmd },
      [Effect.log ("Processing: " ++ cmd),
       Effect.speak "Please start a game first."]) := by
  unfold processCommand
  rw [if_pos ⟨hp, hc⟩]
  rfl

theorem processCommand_ungated (e : Engine) (cmd : String)
    (h : ¬(e.gameState.isPlaying = false ∧
      allowedWhileStopped.contains cmd = false)) :
    processCommand e cmd =
      ((dispatchCommand { e with lastCommand := cmd } cmd).1,
        Effect.log ("Processing: " ++ cmd) ::
          (dispatchCommand { e with lastCommand := cmd } cmd).2) := by
  unfold processCommand
  rw [if_neg h]
  rfl

theorem processCommand_ungated_fst (e : Engine) (cmd : String)
    (h : ¬(e.gameState.isPlaying = false ∧
      allowedWhileStopped.contains cmd = false)) :
    (processCommand e cmd).1 =
      (dispatchCommand { e with lastCommand := cmd } cmd).1 := by
  rw [processCommand_ungated e cmd h]

theorem processCommand_ungated_effects (e : Engine) (cmd : String)
    (h : ¬(e.gameState.isPlaying = false ∧
      allowedWhileStopped.contains cmd = false)) :
    (processCommand e cmd).2 =
      Effect.log ("Processing: " ++ cmd) ::
        (dispatchCommand { e with lastCommand := cmd } cmd).2 := by
  rw [processCommand_ungated e cmd h]

/-! ### Field-level characterizations of the interaction operations -/

theorem completeLevel_fields (e : Engine) :
    (completeLevel e).1.gameState.currentLevel = e.gameState.currentLevel + 1 ∧
    (completeLevel e).1.gameState.score = e.gameState.score + 500 ∧
    (completeLevel e).1.gameState.objectives = e.gameState.objectives ∧
    (completeLevel e).1.gameState.lives = e.gameState.lives ∧
    (completeLevel e).1.gameState.environment = e.gameState.environment ∧
    (completeLevel e).1.gameState.mode = e.gameState.mode ∧
    (completeLevel e).1.gameState.playerPosition = e.gameState.playerPosition ∧
    (completeLevel e).1.gameState.playerDirection = e.gameState.playerDirection ∧
    ((completeLevel e).1.gameState.isPlaying = e.gameState.isPlaying ∨
      (completeLevel e).1.gameState.isPlaying = false) := by
  simp only [completeLevel, gameWon, stopGame]
  by_cases h : e.gameState.currentLevel + 1 ≤ environments.length <;> simp [h]

theorem interactWithObjective_fields (e : Engine) (obj : Objective) (k : Nat) :
    (interactWithObjective e obj k).1.gameState.objectives =
      e.gameState.objectives.eraseIdx k ∧
    (interactWithObjective e obj k).1.gameState.score = e.gameState.score + 100 +
      (if e.gameState.objectives.eraseIdx k = [] then 500 else 0) ∧
    (interactWithObjective e obj k).1.gameState.currentLevel = e.gameState.currentLevel +
      (if e.gameState.objectives.eraseIdx k = [] then 1 else 0) ∧
    (interactWithObjective e obj k).1.gameState.lives = e.gameState.lives ∧
    (interactWithObjective e obj k).1.gameState.environment = e.gameState.environment ∧
    (interactWithObjective e obj k).1.gameState.mode = e.gameState.mode ∧
    (interactWithObjective e obj k).1.gameState.playerPosition =
      e.gameState.playerPosition ∧
    (interactWithObjective e obj k).1.gameState.playerDirection =
      e.gameState.playerDirection ∧
    ((interactWithObjective e obj k).1.gameState.isPlaying = e.gameState.isPlaying ∨
      (interactWithObjective e obj k).1.gameState.isPlaying = false) := by
  simp only [interactWithObjective, List.isEmpty_iff]
  by_cases h : e.gameState.objectives.eraseIdx k = []
  · have hc := completeLevel_fields
      { e with gameState := { e.gameState with
          score := e.gameState.score + 100,
          objectives := ([] : List Objective) } }
    simp only [h, if_true]
    obtain ⟨h1, h2, h3, h4, h5, h6, h7, h8, h9⟩ := hc
    simp only at h1 h2 h3 h4 h5 h6 h7 h8 h9 ⊢
    exact ⟨h3, by omega, by omega, h4, h5, h6, h7, h8, h9⟩
  · simp [h]

theorem interactWithHazard_fields (e : Engine) (hz : Hazard) :
    (interactWithHazard e hz).1.gameState.lives = e.gameState.lives - 1 ∧
    (interactWithHazard e hz).1.gameState.score = e.gameState.score ∧
    (interactWithHazard e hz).1.gameState.currentLevel = e.gameState.currentLevel ∧
    (interactWithHazard e hz).1.gameState.objectives = e.gameState.objectives ∧
    (interactWithHazard e hz).1.gameState.environment = e.gameState.environment ∧
    (interactWithHazard e hz).1.gameState.mode = e.gameState.mode ∧
    (interactWithHazard e hz).1.gameState.playerDirection = e.gameState.playerDirection ∧
    ((interactWithHazard e hz).1.gameState.playerPosition = e.gameState.playerPosition ∨
      (interactWithHazard e hz).1.gameState.playerPosition = vzero) ∧
    ((interactWithHazard e hz).1.gameState.isPlaying = e.gameState.isPlaying ∨
      (interactWithHazard e hz).1.gameState.isPlaying = false) := by
  simp only [interactWithHazard, gameOver, stopGame]
  by_cases h : e.gameState.lives - 1 ≤ 0 <;> simp [h]

/-- Invariant of the `forEach`-with-`splice` objective pass: lives, the
environment, the mode and the pose are untouched; the objective list never
grows; the score grows by exactly 100 per removed objective plus a single 500
level-completion bonus exactly when the pass empties a nonempty list, which
is also exactly when the level counter advances (by 1). -/
theorem objectivesLoop_fields :
    ∀ (fuel k : Nat) (e : Engine),
    (objectivesLoop e k fuel).1.gameState.lives = e.gameState.lives ∧
    (objectivesLoop e k fuel).1.gameState.environment = e.gameState.environment ∧
    (objectivesLoop e k fuel).1.gameState.mode = e.gameState.mode ∧
    (objectivesLoop e k fuel).1.gameState.playerPosition = e.gameState.playerPosition ∧
    (objectivesLoop e k fuel).1.gameState.playerDirection = e.gameState.playerDirection ∧
    (objectivesLoop e k fuel).1.gameState.objectives.length ≤
      e.gameState.objectives.length ∧
    (objectivesLoop e k fuel).1.gameState.score = e.gameState.score
      + 100 * ((e.gameState.objectives.length : Int)
          - ((objectivesLoop e k fuel).1.gameState.objectives.length : Int))
      + (if e.gameState.objectives ≠ [] ∧
            (objectivesLoop e k fuel).1.gameState.objectives = [] then 500 else 0) ∧
    (objectivesLoop e k fuel).1.gameState.currentLevel = e.gameState.currentLevel
      + (if e.gameState.objectives ≠ [] ∧
            (objectivesLoop e k fuel).1.gameState.objectives = [] then 1 else 0) ∧
    ((objectivesLoop e k fuel).1.gameState.isPlaying = e.gameState.isPlaying ∨
      (objectivesLoop e k fuel).1.gameState.isPlaying = false) := by
  intro fuel
  induction fuel with
  | zero =>
    intro k e
    refine ⟨rfl, rfl, rfl, rfl, rfl, le_refl _, ?_, ?_, Or.inl rfl⟩
    · simp only [objectivesLoop]
      rw [if_neg fun hc => hc.1 hc.2]
      omega
    · simp only [objectivesLoop]
      rw [if_neg fun hc => hc.1 hc.2]
      omega
  | succ n ih =>
    intro k e
    cases hg : e.gameState.objectives.get? k with
    | none =>
      simpa only [objectivesLoop, hg] using ih (k + 1) e
    | some obj =>
      by_cases hr : 4 * distSq e.gameState.playerPosition obj.position ≤ 9
      · have hk : k < e.gameState.objectives.length := by
          rcases List.get?_eq_some.mp hg with ⟨h, _⟩; exact h
        have hlen : (e.gameState.objectives.eraseIdx k).length + 1 =
            e.gameState.objectives.length := List.length_eraseIdx_add_one hk
        have hne : e.gameState.objectives ≠ [] := by
          intro hnil
          rw [hnil] at hk
          exact absurd hk (by simp)
        obtain ⟨o1, o2, o3, o4, o5, o6, o7, o8, o9⟩ :=
          interactWithObjective_fields e obj k
        obtain ⟨r1, r2, r3, r4, r5, r6, r7, r8, r9⟩ :=
          ih (k + 1) (interactWithObjective e obj k).1
        have hBlen : (interactWithObjective e obj k).1.gameState.objectives.length
            = (e.gameState.objectives.eraseIdx k).length := by rw [o1]
        simp only [objectivesLoop, hg, if_pos hr]
        refine ⟨by rw [r1, o4], by rw [r2, o5], by rw [r3, o6],
          by rw [r4, o7], by rw [r5, o8], by omega, ?_, ?_, ?_⟩
        · by_cases hE : e.gameState.objectives.eraseIdx k = []
          · have hlenz : (e.gameState.objectives.eraseIdx k).length = 0 := by
              rw [hE]; rfl
            have hflen : (objectivesLoop (interactWithObjective e obj k).1 (k + 1)
                n).1.gameState.objectives.length = 0 := by omega
            have hfin : (objectivesLoop (interactWithObjective e obj k).1 (k + 1)
                n).1.gameState.objectives = [] := List.length_eq_zero.mp hflen
            rw [if_pos ⟨hne, hfin⟩]
            rw [if_pos hE] at o2
            rw [o1, hE] at r7
            rw [if_neg fun hc => hc.1 rfl] at r7
            simp only [List.length_nil] at r7
            omega
          · rw [if_neg hE] at o2
            rw [o1] at r6 r7
            by_cases hF : (objectivesLoop (interactWithObjective e obj k).1 (k + 1)
                n).1.gameState.objectives = []
            · rw [if_pos ⟨hne, hF⟩]
              rw [if_pos ⟨hE, hF⟩] at r7
              omega
            · rw [if_neg fun hc => hF hc.2]
              rw [if_neg fun hc => hF hc.2] at r7
              omega
        · by_cases hE : e.gameState.objectives.eraseIdx k = []
          · have hlenz : (e.gameState.objectives.eraseIdx k).length = 0 := by
              rw [hE]; rfl
            have hflen : (objectivesLoop (interactWithObjective e obj k).1 (k + 1)
                n).1.gameState.objectives.length = 0 := by omega
            have hfin : (objectivesLoop (interactWithObjective e obj k).1 (k + 1)
                n).1.gameState.objectives = [] := List.length_eq_zero.mp hflen
            rw [if_pos ⟨hne, hfin⟩]
            rw [if_pos hE] at o3
            rw [o1, hE] at r8
            rw [if_neg fun hc => hc.1 rfl] at r8
            omega
          · rw [if_neg hE] at o3
            rw [o1] at r8
            by_cases hF : (objectivesLoop (interactWithObjective e obj k).1 (k + 1)
                n).1.gameState.objectives = []
            · rw [if_pos ⟨hne, hF⟩]
              rw [if_pos ⟨hE, hF⟩] at r8
              omega
            · rw [if_neg fun hc => hF hc.2]
              rw [if_neg fun hc => hF hc.2] at r8
              omega
        · rcases r9 with h | h
          · rw [h]
            rcases o9 with h2 | h2
            · exact Or.inl h2
            · exact Or.inr h2
          · exact Or.inr h
      · by_cases hh : distSq e.gameState.playerPosition obj.position ≤ 9
        · simpa only [objectivesLoop, hg, if_neg hr, if_pos hh] using ih (k + 1) e
        · simpa only [objectivesLoop, hg, if_neg hr, if_neg hh] using ih (k + 1) e

/-- Invariant of the hazard pass: score, level, the objective list, the
environment, the mode and the heading are untouched; lives never increase;
the player either keeps the position or is back at the origin. -/
theorem hazardsLoop_fields :
    ∀ (hs : List Hazard) (k : Nat) (e : Engine),
    (hazardsLoop e hs k).1.gameState.score = e.gameState.score ∧
    (hazardsLoop e hs k).1.gameState.currentLevel = e.gameState.currentLevel ∧
    (hazardsLoop e hs k).1.gameState.objectives = e.gameState.objectives ∧
    (hazardsLoop e hs k).1.gameState.environment = e.gameState.environment ∧
    (hazardsLoop e hs k).1.gameState.mode = e.gameState.mode ∧
    (hazardsLoop e hs k).1.gameState.playerDirection = e.gameState.playerDirection ∧
    (hazardsLoop e hs k).1.gameState.lives ≤ e.gameState.lives ∧
    ((hazardsLoop e hs k).1.gameState.playerPosition = e.gameState.playerPosition ∨
      (hazardsLoop e hs k).1.gameState.playerPosition = vzero) ∧
    ((hazardsLoop e hs k).1.gameState.isPlaying = e.gameState.isPlaying ∨
      (hazardsLoop e hs k).1.gameState.isPlaying = false) := by
  intro hs
  induction hs with
  | nil =>
    intro k e
    exact ⟨rfl, rfl, rfl, rfl, rfl, rfl, le_refl _, Or.inl rfl, Or.inl rfl⟩
  | cons hazard rest ih =>
    intro k e
    by_cases h1 : 4 * distSq e.gameState.playerPosition hazard.position ≤ 9
    · obtain ⟨o1, o2, o3, o4, o5, o6, o7, o8, o9⟩ := interactWithHazard_fields e hazard
      obtain ⟨r1, r2, r3, r4, r5, r6, r7, r8, r9⟩ :=
        ih (k + 1) (interactWithHazard e hazard).1
      simp only [hazardsLoop, if_pos h1]
      refine ⟨by rw [r1, o2], by rw [r2, o3], by rw [r3, o4], by rw [r4, o5],
        by rw [r5, o6], by rw [r6, o7], by omega, ?_, ?_⟩
      · rcases r8 with h | h
        · rw [h]
          rcases o8 with h2 | h2
          · exact Or.inl h2
          · exact Or.inr h2
        · exact Or.inr h
      · rcases r9 with h | h
        · rw [h]
          rcases o9 with h2 | h2
          · exact Or.inl h2
          · exact Or.inr h2
        · exact Or.inr h
    · by_cases h2 : distSq e.gameState.playerPosition hazard.position ≤ 4
      · simpa only [hazardsLoop, if_neg h1, if_pos h2] using ih (k + 1) e
      · simpa only [hazardsLoop, if_neg h1, if_neg h2] using ih (k + 1) e

/-- Invariant of a full `checkForInteractions` pass, combining the objective
and hazard passes. -/
theorem checkForInteractions_fields (e : Engine) :
    (checkForInteractions e).1.gameState.environment = e.gameState.environment ∧
    (checkForInteractions e).1.gameState.mode = e.gameState.mode ∧
    (checkForInteractions e).1.gameState.playerDirection = e.gameState.playerDirection ∧
    (checkForInteractions e).1.gameState.lives ≤ e.gameState.lives ∧
    (checkForInteractions e).1.gameState.objectives.length ≤
      e.gameState.objectives.length ∧
    (checkForInteractions e).1.gameState.score = e.gameState.score
      + 100 * ((e.gameState.objectives.length : Int)
          - ((checkForInteractions e).1.gameState.objectives.length : Int))
      + (if e.gameState.objectives ≠ [] ∧
            (checkForInteractions e).1.gameState.objectives = [] then 500 else 0) ∧
    (checkForInteractions e).1.gameState.currentLevel = e.gameState.currentLevel
      + (if e.gameState.objectives ≠ [] ∧
            (checkForInteractions e).1.gameState.objectives = [] then 1 else 0) ∧
    ((checkForInteractions e).1.gameState.playerPosition = e.gameState.playerPosition ∨
      (checkForInteractions e).1.gameState.playerPosition = vzero) ∧
    ((checkForInteractions e).1.gameState.isPlaying = e.gameState.isPlaying ∨
      (checkForInteractions e).1.gameState.isPlaying = false) := by
  obtain ⟨o1, o2, o3, o4, o5, o6, o7, o8, o9⟩ :=
    objectivesLoop_fields e.gameState.objectives.length 0 e
  obtain ⟨r1, r2, r3, r4, r5, r6, r7, r8, r9⟩ :=
    hazardsLoop_fields
      (((objectivesLoop e 0 e.gameState.objectives.length).1.gameState.environment.map
        Environment.hazards).getD []) 0
      (objectivesLoop e 0 e.gameState.objectives.length).1
  simp only [checkForInteractions]
  refine ⟨by rw [r4, o2], by rw [r5, o3], by rw [r6, o5], by omega,
    by rw [r3]; omega, ?_, ?_, ?_, ?_⟩
  · simp only [r1, r3]
    exact o7
  · simp only [r2, r3]
    exact o8
  · rcases r8 with h | h
    · rw [h, o4]
      exact Or.inl rfl
    · exact Or.inr h
  · rcases r9 with h | h
    · rw [h]
      exact o9
    · exact Or.inr h

/-- Invariant of a whole `movePlayer` call: the environment, the mode and the
lives bound survive; objectives never grow; score and level follow the
interaction formulas; a rejected or guarded move leaves everything unchanged. -/
theorem movePlayer_fields (e : Engine) (d : Direction) :
    (movePlayer e d).1.gameState.environment = e.gameState.environment ∧
    (movePlayer e d).1.gameState.mode = e.gameState.mode ∧
    (movePlayer e d).1.gameState.lives ≤ e.gameState.lives ∧
    (movePlayer e d).1.gameState.objectives.length ≤ e.gameState.objectives.length ∧
    (movePlayer e d).1.gameState.score = e.gameState.score
      + 100 * ((e.gameState.objectives.length : Int)
          - ((movePlayer e d).1.gameState.objectives.length : Int))
      + (if e.gameState.objectives ≠ [] ∧
            (movePlayer e d).1.gameState.objectives = [] then 500 else 0) ∧
    (movePlayer e d).1.gameState.currentLevel = e.gameState.currentLevel
      + (if e.gameState.objectives ≠ [] ∧
            (movePlayer e d).1.gameState.objectives = [] then 1 else 0) ∧
    ((movePlayer e d).1.gameState.isPlaying = e.gameState.isPlaying ∨
      (movePlayer e d).1.gameState.isPlaying = false) := by
  have hid : ∀ (x : Engine), x.gameState = e.gameState →
      x.gameState.environment = e.gameState.environment ∧
      x.gameState.mode = e.gameState.mode ∧
      x.gameState.lives ≤ e.gameState.lives ∧
      x.gameState.objectives.length ≤ e.gameState.objectives.length ∧
      x.gameState.score = e.gameState.score
        + 100 * ((e.gameState.objectives.length : Int)
            - (x.gameState.objectives.length : Int))
        + (if e.gameState.objectives ≠ [] ∧
              x.gameState.objectives = [] then 500 else 0) ∧
      x.gameState.currentLevel = e.gameState.currentLevel
        + (if e.gameState.objectives ≠ [] ∧
              x.gameState.objectives = [] then 1 else 0) ∧
      (x.gameState.isPlaying = e.gameState.isPlaying ∨
        x.gameState.isPlaying = false) := by
    intro x hx
    rw [hx]
    refine ⟨rfl, rfl, le_refl _, le_refl _, ?_, ?_, Or.inl rfl⟩
    · rw [if_neg fun hc => hc.1 hc.2]; omega
    · rw [if_neg fun hc => hc.1 hc.2]; omega
  have haccept : ∀ (x : Engine), x.gameState.objectives = e.gameState.objectives →
      x.gameState.score = e.gameState.score →
      x.gameState.currentLevel = e.gameState.currentLevel →
      x.gameState.lives = e.gameState.lives →
      x.gameState.environment = e.gameState.environment →
      x.gameState.mode = e.gameState.mode →
      x.gameState.isPlaying = e.gameState.isPlaying →
      (movePlayerAccepted x d).1.gameState.environment = e.gameState.environment ∧
      (movePlayerAccepted x d).1.gameState.mode = e.gameState.mode ∧
      (movePlayerAccepted x d).1.gameState.lives ≤ e.gameState.lives ∧
      (movePlayerAccepted x d).1.gameState.objectives.length ≤
        e.gameState.objectives.length ∧
      (movePlayerAccepted x d).1.gameState.score = e.gameState.score
        + 100 * ((e.gameState.objectives.length : Int)
            - ((movePlayerAccepted x d).1.gameState.objectives.length : Int))
        + (if e.gameState.objectives ≠ [] ∧
              (movePlayerAccepted x d).1.gameState.objectives = [] then 500 else 0) ∧
      (movePlayerAccepted x d).1.gameState.currentLevel = e.gameState.currentLevel
        + (if e.gameState.objectives ≠ [] ∧
              (movePlayerAccepted x d).1.gameState.objectives = [] then 1 else 0) ∧
      ((movePlayerAccepted x d).1.gameState.isPlaying = e.gameState.isPlaying ∨
        (movePlayerAccepted x d).1.gameState.isPlaying = false) := by
    intro x h1 h2 h3 h4 h5 h6 h7
    obtain ⟨c1, c2, c3, c4, c5, c6, c7, c8, c9⟩ := checkForInteractions_fields x
    simp only [movePlayerAccepted]
    rw [h1] at c5 c6 c7
    refine ⟨by rw [c1, h5], by rw [c2, h6], by omega, c5, ?_, ?_, ?_⟩
    · simp only [c6, h2]
    · simp only [c7, h3]
    · rcases c9 with h | h
      · rw [h, h7]
        exact Or.inl rfl
      · exact Or.inr h
  simp only [movePlayer]
  split
  · apply hid
    rfl
  · split
    · split
      · apply hid
        rfl
      · apply haccept <;> rfl
    · apply haccept <;> rfl

/-- Looking around never mutates the engine. -/
theorem lookAround_state (e : Engine) : (lookAround e).1 = e := by
  simp only [lookAround]
  split
  · rfl
  · split
    · split <;> rfl
    · rfl

/-- Asking for help never mutates the engine. -/
theorem provideHelp_state (e : Engine) : (provideHelp e).1 = e := rfl

/-- An unknown command never mutates the engine. -/
theorem handleUnknownCommand_state (e : Engine) (c : String) :
    (handleUnknownCommand e c).1 = e := rfl

/-- Toggling the mode touches nothing but the mode field. -/
theorem toggleMode_fields (e : Engine) :
    (toggleMode e).1.gameState.score = e.gameState.score ∧
    (toggleMode e).1.gameState.lives = e.gameState.lives ∧
    (toggleMode e).1.gameState.currentLevel = e.gameState.currentLevel ∧
    (toggleMode e).1.gameState.objectives = e.gameState.objectives ∧
    (toggleMode e).1.gameState.environment = e.gameState.environment ∧
    (toggleMode e).1.gameState.playerPosition = e.gameState.playerPosition ∧
    (toggleMode e).1.gameState.isPlaying = e.gameState.isPlaying := by
  simp only [toggleMode]
  split <;> exact ⟨rfl, rfl, rfl, rfl, rfl, rfl, rfl⟩

/-- Stopping the game touches nothing but `isPlaying`. -/
theorem stopGame_fields (e : Engine) :
    (stopGame e).1.gameState.score = e.gameState.score ∧
    (stopGame e).1.gameState.lives = e.gameState.lives ∧
    (stopGame e).1.gameState.currentLevel = e.gameState.currentLevel ∧
    (stopGame e).1.gameState.objectives = e.gameState.objectives ∧
    (stopGame e).1.gameState.environment = e.gameState.environment ∧
    (stopGame e).1.gameState.playerPosition = e.gameState.playerPosition ∧
    (stopGame e).1.gameState.isPlaying = false :=
  ⟨rfl, rfl, rfl, rfl, rfl, rfl, rfl⟩

/-- Every environment the catalog lookup can return has a nonempty objective
list (both hand-authored levels ship exactly one objective). -/
theorem environments_objectives_ne_nil (i : Nat) (env : Environment)
    (h : environments.get? i = some env) : env.objectives ≠ [] := by
  have hmem : env ∈ environments := List.get?_mem h
  simp only [environments, List.mem_cons, List.mem_singleton] at hmem
  rcases hmem with rfl | hmem
  · simp [forestEnv, forestObjectives]
  · rcases hmem with rfl | hfalse
    · simp [caveEnv, caveObjectives]
    · exact absurd hfalse (List.not_mem_nil env)

/-- Starting a game never touches score, lives or the level; it resets the
pose and either keeps the objective list (practice mode, or a failed catalog
lookup) or copies it from the catalog entry of the current level. -/
theorem startGame_fields (e : Engine) (m : Mode) :
    (startGame e m).1.gameState.score = e.gameState.score ∧
    (startGame e m).1.gameState.lives = e.gameState.lives ∧
    (startGame e m).1.gameState.currentLevel = e.gameState.currentLevel ∧
    (startGame e m).1.gameState.isPlaying = true ∧
    (startGame e m).1.gameState.playerPosition = vzero ∧
    (startGame e m).1.gameState.playerDirection = defaultDirection ∧
    (startGame e m).1.gameState.mode = m ∧
    ((startGame e m).1.gameState.objectives = e.gameState.objectives ∨
      ∃ env, environments.get? (e.gameState.currentLevel - 1) = some env ∧
        (startGame e m).1.gameState.objectives = env.objectives) := by
  simp only [startGame, startPracticeMode, startAdventureMode]
  split
  · exact ⟨rfl, rfl, rfl, rfl, rfl, rfl, rfl, Or.inl rfl⟩
  · split
    · exact ⟨rfl, rfl, rfl, rfl, rfl, rfl, rfl, Or.inl rfl⟩
    · rename_i env heq
      exact ⟨rfl, rfl, rfl, rfl, rfl, rfl, rfl, Or.inr ⟨env, heq, rfl⟩⟩

/-- Across any single non-reset command, the score moves only by 100s and
500s (never down), and the level advances exactly when the command empties a
nonempty objective list. -/
theorem processCommand_score_level (e : Engine) (cmd : String)
    (h : cmd ≠ "reset game") :
    (∃ a b : Nat, (processCommand e cmd).1.gameState.score =
        e.gameState.score + 100 * a + 500 * b) ∧
    (processCommand e cmd).1.gameState.currentLevel = e.gameState.currentLevel +
      (if e.gameState.objectives ≠ [] ∧
          (processCommand e cmd).1.gameState.objectives = [] then 1 else 0) := by
  have hfix : ∀ (x : Engine), x.gameState.score = e.gameState.score →
      x.gameState.objectives = e.gameState.objectives →
      x.gameState.currentLevel = e.gameState.currentLevel →
      ((∃ a b : Nat, x.gameState.score = e.gameState.score + 100 * a + 500 * b) ∧
       x.gameState.currentLevel = e.gameState.currentLevel +
         (if e.gameState.objectives ≠ [] ∧ x.gameState.objectives = [] then 1 else 0)) := by
    intro x hs ho hl
    refine ⟨⟨0, 0, by rw [hs]; simp⟩, ?_⟩
    rw [ho, if_neg fun hc => hc.1 hc.2, hl]
    omega
  have hmove : ∀ d : Direction,
      (∃ a b : Nat, (movePlayer { e with lastCommand := cmd } d).1.gameState.score =
          e.gameState.score + 100 * a + 500 * b) ∧
      (movePlayer { e with lastCommand := cmd } d).1.gameState.currentLevel =
        e.gameState.currentLevel + (if e.gameState.objectives ≠ [] ∧
          (movePlayer { e with lastCommand := cmd } d).1.gameState.objectives = []
          then 1 else 0) := by
    intro d
    obtain ⟨m1, m2, m3, m4, m5, m6, m7⟩ :=
      movePlayer_fields { e with lastCommand := cmd } d
    simp only at m4 m5 m6
    constructor
    · refine ⟨e.gameState.objectives.length -
        (movePlayer { e with lastCommand := cmd } d).1.gameState.objectives.length,
        (if e.gameState.objectives ≠ [] ∧
          (movePlayer { e with lastCommand := cmd } d).1.gameState.objectives = []
          then 1 else 0), ?_⟩
      by_cases hc : e.gameState.objectives ≠ [] ∧
          (movePlayer { e with lastCommand := cmd } d).1.gameState.objectives = []
      · rw [if_pos hc] at m5 ⊢
        omega
      · rw [if_neg hc] at m5 ⊢
        omega
    · exact m6
  by_cases hg : e.gameState.isPlaying = false ∧
      allowedWhileStopped.contains cmd = false
  · rw [processCommand_gated e cmd hg.1 hg.2]
    refine ⟨⟨0, 0, by simp⟩, ?_⟩
    rw [if_neg fun hc => hc.1 hc.2]
    simp
  · rw [processCommand_ungated_fst e cmd hg]
    by_cases h1 : cmd = "start game"
    · subst h1
      rw [dispatchCommand_start]
      obtain ⟨s1, s2, s3, s4, s5, s6, s7, s8⟩ :=
        startGame_fields { e with lastCommand := "start game" }
          ({ e with lastCommand := "start game" }).gameState.mode
      simp only at s1 s3
      refine ⟨⟨0, 0, by rw [s1]; simp⟩, ?_⟩
      rcases s8 with hobj | ⟨env, hget, hobj⟩
      · simp only at hobj
        rw [hobj, if_neg fun hc => hc.1 hc.2, s3]
        omega
      · have hne := environments_objectives_ne_nil _ env (by simpa using hget)
        rw [hobj, if_neg fun hc => hne hc.2, s3]
        omega
    · by_cases h2 : cmd = "go left"
      · subst h2
        rw [dispatchCommand_left]
        exact hmove .left
      · by_cases h3 : cmd = "go right"
        · subst h3
          rw [dispatchCommand_right]
          exact hmove .right
        · by_cases h4 : cmd = "go forward"
          · subst h4
            rw [dispatchCommand_forward]
            exact hmove .forward
          · by_cases h5 : cmd = "go back"
            · subst h5
              rw [dispatchCommand_back]
              exact hmove .back
            · by_cases h6 : cmd = "look around"
              · subst h6
                rw [dispatchCommand_look]
                apply hfix <;> rw [lookAround_state]
              · by_cases h7 : cmd = "help"
                · subst h7
                  rw [dispatchCommand_help]
                  apply hfix <;> rw [provideHelp_state]
                · by_cases h8 : cmd = "repeat"
                  · subst h8
                    rw [dispatchCommand_repeat]
                    exact hfix _ rfl rfl rfl
                  · by_cases h9 : cmd = "toggle mode"
                    · subst h9
                      rw [dispatchCommand_toggle]
                      obtain ⟨t1, t2, t3, t4, t5, t6, t7⟩ :=
                        toggleMode_fields { e with lastCommand := "toggle mode" }
                      simp only at t1 t3 t4
                      exact hfix _ t1 t4 t3
                    · by_cases h10 : cmd = "stop game"
                      · subst h10
                        rw [dispatchCommand_stop]
                        obtain ⟨t1, t2, t3, t4, t5, t6, t7⟩ :=
                          stopGame_fields { e with lastCommand := "stop game" }
                        simp only at t1 t3 t4
                        exact hfix _ t1 t4 t3
                      · have hv : ¬ cmd ∈ commandVocabulary := by
                          intro hmem
                          simp only [commandVocabulary, List.mem_cons,
                            List.not_mem_nil, or_false] at hmem
                          rcases hmem with rfl | rfl | rfl | rfl | rfl | rfl |
                            rfl | rfl | rfl | rfl | rfl
                          · exact h1 rfl
                          · exact h2 rfl
                          · exact h3 rfl
                          · exact h4 rfl
                          · exact h5 rfl
                          · exact h6 rfl
                          · exact h7 rfl
                          · exact h8 rfl
                          · exact h9 rfl
                          · exact h rfl
                          · exact h10 rfl
                        rw [dispatchCommand_unknown _ cmd hv]
                        apply hfix <;> rw [handleUnknownCommand_state]

/-! ### Concrete scenarios -/

/-- Commands that clear level 1: enter adventure mode, start, walk to the
crystal at (3, 0, 4) (collected at (3, 0, 3), within the 1.5 radius). -/
def levelOneClear : List String :=
  ["toggle mode", "start game", "go right", "go right", "go right",
   "go forward", "go forward", "go forward"]

/-- A walk from the origin onto the level-1 pit hazard at (-2, 0, 2)
(triggered at (-2, 0, 1), within the 1.5 radius). -/
def hazardRoute : List String := ["go left", "go left", "go forward"]

/-- Lose all three lives on the pit, then restart the session. -/
def restartAfterGameOver : List String :=
  ["toggle mode", "start game"] ++ hazardRoute ++ hazardRoute ++ hazardRoute ++
    ["start game"]

/-- Start an adventure session, stop it, and switch into a practice session. -/
def practiceAfterAdventure : List String :=
  ["toggle mode", "start game", "stop game", "toggle mode", "start game"]

/-- Two objectives lying at the player's own position, to exercise the
interaction pass with more than one in-range objective. -/
def duoObjectiveA : Objective :=
  { type := "find", target := "a", position := ⟨0, 0, 0⟩,
    description := "objective one" }

/-- Second of the two stacked test objectives. -/
def duoObjectiveB : Objective :=
  { type := "find", target := "b", position := ⟨0, 0, 0⟩,
    description := "objective two" }

/-- A playing session holding both stacked objectives. -/
def duoObjectiveEngine : Engine :=
  { gameState :=
      { mode := .adventure,
        isPlaying := true,
        score := 0,
        lives := 3,
        currentLevel := 1,
        playerPosition := vzero,
        playerDirection := defaultDirection,
        environment := some practiceRoom,
        objectives := [duoObjectiveA, duoObjectiveB],
        inventory := [] },
    currentObjective := some duoObjectiveA,
    lastCommand := "" }

/-! ### Claims -/

/-- C1.  The spec requires the scheduled next-level transition to be a no-op
after a `reset`.  The source schedules a bare `setTimeout` over `this` with no
session guard, so after clearing level 1 and resetting, the stale callback
(which runs `startAdventureMode` on the then-current state) is not a no-op: it
reloads the level-1 environment, repopulates the objective list and emits a
welcome narration into the reset, idle session. -/
theorem c1_stale_timer_fires :
    Effect.scheduleNextLevel ∈ (runTrace initEngine levelOneClear).2 ∧
    (runCommands initEngine levelOneClear).gameState.currentLevel = 2 ∧
    (processCommand (runCommands initEngine levelOneClear)
      "reset game").1.gameState.environment = none ∧
    (processCommand (runCommands initEngine levelOneClear)
      "reset game").1.gameState.objectives = [] ∧
    (startAdventureMode (processCommand (runCommands initEngine levelOneClear)
      "reset game").1).1.gameState.environment = some forestEnv ∧
    (startAdventureMode (processCommand (runCommands initEngine levelOneClear)
      "reset game").1).1.gameState.objectives = forestObjectives ∧
    (startAdventureMode (processCommand (runCommands initEngine levelOneClear)
      "reset game").1).2 ≠ [] := by
  decide

/-- C2.  The claimed invariant `0 ≤ lives ≤ 3` (with `lives = 0` forcing
Stopped) fails on the code: after a game over, `start game` re-enters Playing
without restoring lives, and one more hazard hit drives `lives` to -1. -/
theorem c2_lives_reach_negative :
    (runCommands initEngine (["toggle mode", "start game"] ++ hazardRoute ++
      hazardRoute ++ hazardRoute)).gameState.lives = 0 ∧
    (runCommands initEngine (["toggle mode", "start game"] ++ hazardRoute ++
      hazardRoute ++ hazardRoute)).gameState.isPlaying = false ∧
    (runCommands initEngine restartAfterGameOver).gameState.lives = 0 ∧
    (runCommands initEngine restartAfterGameOver).gameState.isPlaying = true ∧
    (runCommands initEngine
      (restartAfterGameOver ++ hazardRoute)).gameState.lives = -1 := by
  decide

/-- C7.  The claimed invariant that the session objectives are always a subset
of the active environment's original objective set fails on the code:
`startPracticeMode` never clears `objectives`, so a practice session started
after an adventure session still carries the forest crystal while the practice
room's own objective set is empty. -/
theorem c7_practice_keeps_stale_objectives :
    (runCommands initEngine practiceAfterAdventure).gameState.mode =
      Mode.practice ∧
    (runCommands initEngine practiceAfterAdventure).gameState.isPlaying = true ∧
    (runCommands initEngine practiceAfterAdventure).gameState.environment =
      some practiceRoom ∧
    (runCommands initEngine practiceAfterAdventure).gameState.objectives =
      forestObjectives ∧
    practiceRoom.objectives = [] := by
  decide

/-- C5 counterexample.  Both stacked objectives are within the 1.5-unit
interaction radius, yet after the interaction pass the second one is still in
the list and its success log was never emitted: the `forEach`-with-`splice`
loop skips the element that slides into the removed objective's index, so not
every in-range objective triggers in that move. -/
theorem c5_counterexample :
    4 * distSq duoObjectiveEngine.gameState.playerPosition
      duoObjectiveA.position ≤ 9 ∧
    4 * distSq duoObjectiveEngine.gameState.playerPosition
      duoObjectiveB.position ≤ 9 ∧
    duoObjectiveEngine.gameState.objectives = [duoObjectiveA, duoObjectiveB] ∧
    (checkForInteractions duoObjectiveEngine).1.gameState.objectives =
      [duoObjectiveB] ∧
    Effect.log ("Found: " ++ duoObjectiveB.description) ∉
      (checkForInteractions duoObjectiveEngine).2 := by
  decide

/-- C6 counterexample.  "dance" is outside the fixed vocabulary and the session
is not playing, yet `processCommand` emits the start-a-game-first narration,
not the unknown-command echo: the gate runs before the unknown-command
fallback, so the echo does not fire in every phase. -/
theorem c6_counterexample :
    initEngine.gameState.isPlaying = false ∧
    ¬ "dance" ∈ commandVocabulary ∧
    (processCommand initEngine "dance").2 =
      [Effect.log "Processing: dance",
       Effect.speak "Please start a game first."] ∧
    Effect.speak
        "I didn\x27t understand \"dance\". Say \"help\" for available commands." ∉
      (processCommand initEngine "dance").2 := by
  decide

/-- C3.  A move whose candidate position exceeds either half-extent of the
active environment is fully rejected: the position is exactly the pre-move
position, the only effects are the edge narration and the danger sound at
volume 0.5 (no snapshots, no step sound, no interaction pass); and a move
started in bounds always ends in bounds (accepted moves land in bounds, and a
hazard hit can only reset to the origin). -/
theorem c3_boundary_rejection (e : Engine) (d : Direction) (env : Environment)
    (hp : e.gameState.isPlaying = true)
    (henv : e.gameState.environment = some env)
    (hx : 0 ≤ halfX env) (hz : 0 ≤ halfZ env) :
    ((halfX env < |(stepFrom e.gameState.playerPosition d).x| ∨
      halfZ env < |(stepFrom e.gameState.playerPosition d).z|) →
      (movePlayer e d).1.gameState.playerPosition = e.gameState.playerPosition ∧
      (movePlayer e d).2 = [Effect.speak edgeMessage,
        Effect.playSound "danger" (1/2)]) ∧
    ((|e.gameState.playerPosition.x| ≤ halfX env ∧
      |e.gameState.playerPosition.z| ≤ halfZ env) →
      |(movePlayer e d).1.gameState.playerPosition.x| ≤ halfX env ∧
      |(movePlayer e d).1.gameState.playerPosition.z| ≤ halfZ env) := by
  have hgate : ¬ (e.gameState.isPlaying = false) := by rw [hp]; simp
  unfold movePlayer
  rw [if_neg hgate]
  simp only [henv]
  by_cases hb : halfX env < |(stepFrom e.gameState.playerPosition d).x| ∨
      halfZ env < |(stepFrom e.gameState.playerPosition d).z|
  · rw [if_pos hb]
    exact ⟨fun _ => ⟨rfl, rfl⟩, fun hin => hin⟩
  · rw [if_neg hb]
    push_neg at hb
    refine ⟨fun hcontra => absurd hcontra (by push_neg; exact hb), fun hin => ?_⟩
    simp only [movePlayerAccepted]
    obtain ⟨c1, c2, c3, c4, c5, c6, c7, c8, c9⟩ :=
      checkForInteractions_fields
        { e with gameState := { e.gameState with
            playerPosition := stepFrom e.gameState.playerPosition d,
            environment := some env } }
    simp only at c8
    rcases c8 with h | h
    · rw [h]
      exact ⟨hb.1, hb.2⟩
    · rw [h]
      constructor
      · simpa [vzero] using hx
      · simpa [vzero] using hz

/-- A playing adventure session standing at the +x boundary of the forest. -/
def edgeEngine : Engine :=
  { gameState :=
      { mode := .adventure,
        isPlaying := true,
        score := 0,
        lives := 3,
        currentLevel := 1,
        playerPosition := ⟨5, 0, 0⟩,
        playerDirection := defaultDirection,
        environment := some forestEnv,
        objectives := forestObjectives,
        inventory := [] },
    currentObjective := forestObjectives.head?,
    lastCommand := "" }

/-- C3 witness: moving right from (5, 0, 0) against the forest half-extent 5
is rejected with position unchanged and exactly the edge narration plus the
danger sound at volume 0.5. -/
theorem c3_boundary_rejection_witness :
    ((movePlayer edgeEngine .right).1.gameState.playerPosition =
        edgeEngine.gameState.playerPosition ∧
      (movePlayer edgeEngine .right).2 = [Effect.speak edgeMessage,
        Effect.playSound "danger" (1/2)]) ∧
    (|(movePlayer edgeEngine .right).1.gameState.playerPosition.x| ≤
        halfX forestEnv ∧
      |(movePlayer edgeEngine .right).1.gameState.playerPosition.z| ≤
        halfZ forestEnv) :=
  ⟨(c3_boundary_rejection edgeEngine .right forestEnv (by decide) (by decide)
      (by decide) (by decide)).1 (by decide),
   (c3_boundary_rejection edgeEngine .right forestEnv (by decide) (by decide)
      (by decide) (by decide)).2 (by decide)⟩

/-- C8.  Every hazard interaction decrements lives by exactly 1, plays the
danger sound and narrates the hazard; at lives 1 the decrement reaches 0 and
game over fires (session stopped, final-score narration); at lives 2 or more
the player is returned to the origin with the remaining-lives narration and
the session keeps playing.  The environment (and with it every hazard) is
untouched, so the same hazard re-applies the penalty on every later hit. -/
theorem c8_hazard_penalty (e : Engine) (hz : Hazard)
    (hl : 1 ≤ e.gameState.lives) :
    (interactWithHazard e hz).1.gameState.lives = e.gameState.lives - 1 ∧
    Effect.playSound "danger" 1 ∈ (interactWithHazard e hz).2 ∧
    Effect.speak ("Oh no! You encountered " ++ hz.description ++
      ". You lost a life!") ∈ (interactWithHazard e hz).2 ∧
    (e.gameState.lives = 1 →
      (interactWithHazard e hz).1.gameState.isPlaying = false ∧
      Effect.speak ("Game Over! Your final score was " ++
        toString e.gameState.score ++ ". Better luck next time!") ∈
          (interactWithHazard e hz).2) ∧
    (2 ≤ e.gameState.lives →
      (interactWithHazard e hz).1.gameState.playerPosition = vzero ∧
      (interactWithHazard e hz).1.gameState.isPlaying = e.gameState.isPlaying ∧
      Effect.speak ("You have " ++ toString (e.gameState.lives - 1) ++
        " lives remaining. You\x27ve been returned to the starting position.") ∈
          (interactWithHazard e hz).2) ∧
    (interactWithHazard e hz).1.gameState.environment = e.gameState.environment := by
  simp only [interactWithHazard, gameOver, stopGame]
  by_cases hz0 : e.gameState.lives - 1 ≤ 0
  · rw [if_pos hz0]
    refine ⟨rfl, by simp, by simp, fun _ => ⟨rfl, by simp⟩, fun h2 => ?_, rfl⟩
    omega
  · rw [if_neg hz0]
    refine ⟨rfl, by simp, by simp, fun h1 => ?_, fun _ => ⟨rfl, rfl, by simp⟩, rfl⟩
    omega

/-- C8 witness: hitting the forest pit with 3 lives drops to 2, resets the
player to the origin, and keeps the session playing. -/
theorem c8_hazard_penalty_witness :
    (interactWithHazard edgeEngine pitHazard).1.gameState.lives =
      edgeEngine.gameState.lives - 1 ∧
    (2 ≤ edgeEngine.gameState.lives ∧
      (interactWithHazard edgeEngine
        pitHazard).1.gameState.playerPosition = vzero) :=
  ⟨(c8_hazard_penalty edgeEngine pitHazard (by decide)).1,
   by decide,
   ((c8_hazard_penalty edgeEngine pitHazard
      (by decide)).2.2.2.2.1 (by decide)).1⟩

/-- C9.  Completing a level advances `currentLevel` by exactly 1; the
next-level transition is scheduled exactly when the incremented level is still
within the catalog, and otherwise (exactly when it exceeds the catalog size)
game-won fires: the session stops and the victory narration carries the final
score.  Across any non-reset command, the level advances exactly when that
command empties a nonempty objective list, i.e. only on level completion. -/
theorem c9_level_progression :
    (∀ e : Engine,
      (completeLevel e).1.gameState.currentLevel = e.gameState.currentLevel + 1 ∧
      ((environments.length < e.gameState.currentLevel + 1) ↔
        Effect.scheduleNextLevel ∉ (completeLevel e).2) ∧
      (environments.length < e.gameState.currentLevel + 1 →
        (completeLevel e).1.gameState.isPlaying = false ∧
        Effect.speak ("Congratulations! You\x27ve completed all levels! Your final score is " ++
          toString (e.gameState.score + 500) ++
          ". You are a true EchoVerse champion!") ∈ (completeLevel e).2) ∧
      (e.gameState.currentLevel + 1 ≤ environments.length →
        (completeLevel e).1.gameState.isPlaying = e.gameState.isPlaying ∧
        Effect.scheduleNextLevel ∈ (completeLevel e).2)) ∧
    (∀ (e : Engine) (cmd : String), cmd ≠ "reset game" →
      (processCommand e cmd).1.gameState.currentLevel = e.gameState.currentLevel +
        (if e.gameState.objectives ≠ [] ∧
          (processCommand e cmd).1.gameState.objectives = [] then 1 else 0)) := by
  constructor
  · intro e
    simp only [completeLevel, gameWon, stopGame]
    by_cases hcl : e.gameState.currentLevel + 1 ≤ environments.length
    · rw [if_pos hcl]
      refine ⟨rfl, ⟨fun hgt => absurd hcl (by omega), fun hnot => absurd (by simp) hnot⟩,
        fun hgt => absurd hcl (by omega), fun _ => ⟨rfl, by simp⟩⟩
    · rw [if_neg hcl]
      refine ⟨rfl, ⟨fun _ => by simp [updateState], fun _ => by omega⟩,
        fun _ => ⟨rfl, by simp⟩, fun hle => absurd hle hcl⟩
  · intro e cmd hc
    exact (processCommand_score_level e cmd hc).2

/-- C9 witness: completing a level from the initial state (level 1) yields
level 2, within the two-level catalog, so the next level is scheduled; and a
`help` command leaves the level untouched. -/
theorem c9_level_progression_witness :
    ((completeLevel initEngine).1.gameState.currentLevel =
        initEngine.gameState.currentLevel + 1 ∧
      (initEngine.gameState.currentLevel + 1 ≤ environments.length ∧
        Effect.scheduleNextLevel ∈ (completeLevel initEngine).2)) ∧
    ("help" ≠ "reset game" ∧
      (processCommand initEngine "help").1.gameState.currentLevel =
        initEngine.gameState.currentLevel +
          (if initEngine.gameState.objectives ≠ [] ∧
            (processCommand initEngine "help").1.gameState.objectives = []
            then 1 else 0)) :=
  ⟨⟨(c9_level_progression.1 initEngine).1,
    by decide,
    ((c9_level_progression.1 initEngine).2.2.2 (by decide)).2⟩,
   by decide,
   c9_level_progression.2 initEngine "help" (by decide)⟩

/-- C4.  Score accounting: every non-reset command moves the score up by a
sum of 100s (objective interactions) and 500s (level completions) and never
down; `reset game` sets it to exactly 0; each objective interaction adds
exactly 100 (plus the 500 completion bonus exactly when it empties the list);
each level completion adds exactly 500. -/
theorem c4_score_accounting :
    (∀ (e : Engine) (cmd : String), cmd ≠ "reset game" →
      e.gameState.score ≤ (processCommand e cmd).1.gameState.score ∧
      ∃ a b : Nat, (processCommand e cmd).1.gameState.score =
        e.gameState.score + 100 * a + 500 * b) ∧
    (∀ e : Engine, (processCommand e "reset game").1.gameState.score = 0) ∧
    (∀ (e : Engine) (obj : Objective) (k : Nat),
      (interactWithObjective e obj k).1.gameState.score = e.gameState.score +
        100 + (if e.gameState.objectives.eraseIdx k = [] then 500 else 0)) ∧
    (∀ e : Engine,
      (completeLevel e).1.gameState.score = e.gameState.score + 500) := by
  refine ⟨?_, ?_, ?_, ?_⟩
  · intro e cmd hc
    obtain ⟨⟨a, b, hab⟩, _⟩ := processCommand_score_level e cmd hc
    exact ⟨by omega, a, b, hab⟩
  · intro e
    rw [processCommand_ungated_fst e _ (fun hcc => absurd hcc.2 (by decide)),
      dispatchCommand_reset]
    rfl
  · intro e obj k
    exact (interactWithObjective_fields e obj k).2.1
  · intro e
    exact (completeLevel_fields e).2.1

/-- C4 witness: a move from the initial (gated) state keeps the score, and a
reset zeroes it. -/
theorem c4_score_accounting_witness :
    ("go right" ≠ "reset game" ∧
      initEngine.gameState.score ≤
        (processCommand initEngine "go right").1.gameState.score) ∧
    (processCommand initEngine "reset game").1.gameState.score = 0 :=
  ⟨⟨by decide,
    (c4_score_accounting.1 initEngine "go right" (by decide)).1⟩,
   c4_score_accounting.2.1 initEngine⟩

/-- C10.  `start game` while already Playing is accepted and restarts the
current level in place: the pose is reset to the origin and default heading,
`score`, `lives` and `currentLevel` keep their values, the mode is unchanged,
and in Adventure mode the objectives are re-copied from the catalog entry of
the current level (whose lookup is given by `hget`). -/
theorem c10_restart_in_place (e : Engine) (env : Environment)
    (hp : e.gameState.isPlaying = true)
    (hget : environments.get? (e.gameState.currentLevel - 1) = some env) :
    (processCommand e "start game").1.gameState.isPlaying = true ∧
    (processCommand e "start game").1.gameState.playerPosition = vzero ∧
    (processCommand e "start game").1.gameState.playerDirection =
      defaultDirection ∧
    (processCommand e "start game").1.gameState.score = e.gameState.score ∧
    (processCommand e "start game").1.gameState.lives = e.gameState.lives ∧
    (processCommand e "start game").1.gameState.currentLevel =
      e.gameState.currentLevel ∧
    (processCommand e "start game").1.gameState.mode = e.gameState.mode ∧
    (e.gameState.mode = Mode.adventure →
      (processCommand e "start game").1.gameState.objectives = env.objectives ∧
      (processCommand e "start game").1.gameState.environment = some env) := by
  have hgate : ¬(e.gameState.isPlaying = false ∧
      allowedWhileStopped.contains "start game" = false) := by
    intro hc
    rw [hp] at hc
    exact absurd hc.1 (by decide)
  rw [processCommand_ungated_fst e _ hgate, dispatchCommand_start]
  simp only [startGame, startPracticeMode, startAdventureMode]
  cases hm : e.gameState.mode with
  | practice =>
    simp only [hm]
    exact ⟨rfl, rfl, rfl, rfl, rfl, rfl, rfl,
      fun hadv => Mode.noConfusion hadv⟩
  | adventure =>
    simp only [hm, hget]
    exact ⟨rfl, rfl, rfl, rfl, rfl, rfl, rfl, fun _ => ⟨rfl, rfl⟩⟩

/-- C10 witness: restarting a just-started adventure session leaves score 0,
lives 3, level 1 and re-copies the forest objectives. -/
theorem c10_restart_in_place_witness :
    (runCommands initEngine ["toggle mode", "start game"]).gameState.isPlaying
      = true ∧
    (processCommand (runCommands initEngine ["toggle mode", "start game"])
      "start game").1.gameState.lives =
      (runCommands initEngine
        ["toggle mode", "start game"]).gameState.lives ∧
    (processCommand (runCommands initEngine ["toggle mode", "start game"])
      "start game").1.gameState.objectives = forestEnv.objectives :=
  ⟨by decide,
   (c10_restart_in_place (runCommands initEngine ["toggle mode", "start game"])
      forestEnv (by decide) (by decide)).2.2.2.2.1,
   ((c10_restart_in_place (runCommands initEngine ["toggle mode", "start game"])
      forestEnv (by decide) (by decide)).2.2.2.2.2.2.2 (by decide)).1⟩

/-- C6 amended.  While not Playing, any command outside the always-allowed
set — unknown strings included — is refused with the start-a-game-first
narration and no state mutation (only the diagnostic `lastCommand` field of
the engine changes); the unknown-command echo narration and log fire, with no
state mutation, for strings outside the vocabulary while Playing. -/
theorem c6_gating_and_unknown :
    (∀ (e : Engine) (cmd : String),
      e.gameState.isPlaying = false →
      allowedWhileStopped.contains cmd = false →
      processCommand e cmd = ({ e with lastCommand := cmd },
        [Effect.log ("Processing: " ++ cmd),
         Effect.speak "Please start a game first."])) ∧
    (∀ (e : Engine) (cmd : String),
      e.gameState.isPlaying = true →
      ¬ cmd ∈ commandVocabulary →
      (processCommand e cmd).1.gameState = e.gameState ∧
      (processCommand e cmd).2 =
        [Effect.log ("Processing: " ++ cmd),
         Effect.speak ("I didn\x27t understand \"" ++ cmd ++
           "\". Say \"help\" for available commands."),
         Effect.log ("Unknown command: " ++ cmd)]) := by
  constructor
  · exact processCommand_gated
  · intro e cmd hp hv
    have hgate : ¬(e.gameState.isPlaying = false ∧
        allowedWhileStopped.contains cmd = false) := by
      intro hc
      rw [hp] at hc
      exact absurd hc.1 (by decide)
    constructor
    · rw [processCommand_ungated_fst e cmd hgate,
        dispatchCommand_unknown _ cmd hv]
      rfl
    · rw [processCommand_ungated_effects e cmd hgate,
        dispatchCommand_unknown _ cmd hv]
      rfl

/-- C6 witness: "go left" is refused from the initial idle session, and
"dance" issued in a playing practice session is echoed with no mutation. -/
theorem c6_gating_and_unknown_witness :
    processCommand initEngine "go left" =
      ({ initEngine with lastCommand := "go left" },
       [Effect.log "Processing: go left",
        Effect.speak "Please start a game first."]) ∧
    (processCommand (runCommands initEngine ["start game"])
        "dance").1.gameState =
      (runCommands initEngine ["start game"]).gameState :=
  ⟨c6_gating_and_unknown.1 initEngine "go left" (by decide) (by decide),
   (c6_gating_and_unknown.2 (runCommands initEngine ["start game"]) "dance"
      (by decide) (by decide)).1⟩

/-- C5 amended.  The interaction pass never grows the objective list, and
each successful objective interaction removes exactly one objective.  (When
two in-range objectives are adjacent, the splice-during-iteration skips the
second in that move, so the original "all in-range objectives trigger in the
same move" fails; with the shipped one-objective-per-level catalog at most one
objective can ever be in range.) -/
theorem c5_objective_cardinality :
    (∀ e : Engine, (checkForInteractions e).1.gameState.objectives.length ≤
      e.gameState.objectives.length) ∧
    (∀ (e : Engine) (obj : Objective) (k : Nat),
      k < e.gameState.objectives.length →
      (interactWithObjective e obj k).1.gameState.objectives.length =
        e.gameState.objectives.length - 1) := by
  constructor
  · intro e
    exact (checkForInteractions_fields e).2.2.2.2.1
  · intro e obj k hk
    rw [(interactWithObjective_fields e obj k).1, List.length_eraseIdx,
      if_pos hk]

/-- C5 amended witness: on the stacked-objective session the pass shrinks the
list from 2 to 1, and the first interaction removes exactly one element. -/
theorem c5_objective_cardinality_witness :
    ((checkForInteractions duoObjectiveEngine).1.gameState.objectives.length ≤
      duoObjectiveEngine.gameState.objectives.length) ∧
    (0 < duoObjectiveEngine.gameState.objectives.length ∧
      (interactWithObjective duoObjectiveEngine duoObjectiveA
        0).1.gameState.objectives.length =
        duoObjectiveEngine.gameState.objectives.length - 1) :=
  ⟨c5_objective_cardinality.1 duoObjectiveEngine,
   by decide,
   c5_objective_cardinality.2 duoObjectiveEngine duoObjectiveA 0 (by decide)⟩

end EchoVerse
